import Mathlib

/-!
Verification development for the rust-jack core under scrutiny: the
closure-based process-handler adapter (src/client/handler_impls.rs) and the
midi_sine example (examples/midi_sine.rs).  Rust values are shallowly
embedded: `u8` bytes and `u32` frame counts become `Nat` (no arithmetic that
could overflow occurs on them in the modelled code), `f64` state that the
modelled control flow merely stores and moves becomes `ℚ`, and the two
floating-point kernels the example calls (`powf`-based note frequency and
`sin`) are abstracted as function parameters, since no claim depends on
their numeric values.  A Rust `FnMut(&mut T, ...) -> Control` behavior is
embedded as `T → ... → Control × T`: the returned `T` is the mutated state.
-/

set_option autoImplicit false

namespace RustJack

/-- Embeds `jack::Control`: the two-valued directive returned from callbacks. -/
inductive Control where
| Continue : Control
| Quit : Control
deriving DecidableEq, Repr

/-- Embeds `jack::Frames` (`u32` in Rust; no overflowing arithmetic is modelled). -/
abbrev Frames := Nat

/--
Embeds `ClosureProcessHandler<T, B, P>` from handler_impls.rs: owned state
`inner` plus the two stored behaviors.  `Client` and `PS` (process scope)
are opaque external types, so they stay type parameters; behaviors are
monomorphic function values `T → Client → _ → Control × T` (the Rust
generics `B`, `P` only track which function is stored).
-/
structure ClosureProcessHandler (T Client PS : Type) where
  inner : T
  buffer_fn : T → Client → Frames → Control × T
  process_fn : T → Client → PS → Control × T

/-- Embeds `default_buffer_fn`: ignores everything, returns `Control::Continue`
(and leaves the state untouched). -/
def default_buffer_fn {T Client : Type} : T → Client → Frames → Control × T :=
  fun t _ _ => (Control.Continue, t)

/-- Embeds `default_process_fn`: ignores everything, returns `Control::Continue`
(and leaves the state untouched). -/
def default_process_fn {T Client PS : Type} : T → Client → PS → Control × T :=
  fun t _ _ => (Control.Continue, t)

/-- Embeds `ClosureProcessHandler::new(inner)`: both behaviors are the defaults. -/
def ClosureProcessHandler.new {T Client PS : Type} (inner : T) :
    ClosureProcessHandler T Client PS :=
  ⟨inner, default_buffer_fn, default_process_fn⟩

/-- Embeds `with_buffer_fn`: consumes the adapter, replaces only `buffer_fn`. -/
def ClosureProcessHandler.with_buffer_fn {T Client PS : Type}
    (h : ClosureProcessHandler T Client PS) (f : T → Client → Frames → Control × T) :
    ClosureProcessHandler T Client PS :=
  ⟨h.inner, f, h.process_fn⟩

/-- Embeds `with_process_fn`: consumes the adapter, replaces only `process_fn`. -/
def ClosureProcessHandler.with_process_fn {T Client PS : Type}
    (h : ClosureProcessHandler T Client PS) (f : T → Client → PS → Control × T) :
    ClosureProcessHandler T Client PS :=
  ⟨h.inner, h.buffer_fn, f⟩

/-- Embeds the `ProcessHandler::process` impl for the adapter:
`(self.process_fn)(&mut self.inner, c, ps)` — the stored behavior is applied
to the stored state, the returned directive is passed through, and the
mutation of `self.inner` appears as the updated handler. -/
def ClosureProcessHandler.process {T Client PS : Type}
    (h : ClosureProcessHandler T Client PS) (c : Client) (ps : PS) :
    Control × ClosureProcessHandler T Client PS :=
  ((h.process_fn h.inner c ps).1,
    ⟨(h.process_fn h.inner c ps).2, h.buffer_fn, h.process_fn⟩)

/-- Embeds the `ProcessHandler::buffer_size` impl for the adapter:
`(self.buffer_fn)(&mut self.inner, c, size)`. -/
def ClosureProcessHandler.buffer_size {T Client PS : Type}
    (h : ClosureProcessHandler T Client PS) (c : Client) (size : Frames) :
    Control × ClosureProcessHandler T Client PS :=
  ((h.buffer_fn h.inner c size).1,
    ⟨(h.buffer_fn h.inner c size).2, h.buffer_fn, h.process_fn⟩)

/-- C2: for every adapter, stored state, client handle, process scope, and
buffer size, `process` returns exactly the result of applying the stored
`process_fn` to the stored state (directive passed through, state mutated to
the behavior's output), and `buffer_size` likewise applies the stored
`buffer_fn`; there is no other indirection. -/
theorem c2_adapter_dispatch {T Client PS : Type}
    (h : ClosureProcessHandler T Client PS) (c : Client) (ps : PS) (size : Frames) :
    (h.process c ps).1 = (h.process_fn h.inner c ps).1 ∧
    (h.process c ps).2.inner = (h.process_fn h.inner c ps).2 ∧
    (h.process c ps).2.buffer_fn = h.buffer_fn ∧
    (h.process c ps).2.process_fn = h.process_fn ∧
    (h.buffer_size c size).1 = (h.buffer_fn h.inner c size).1 ∧
    (h.buffer_size c size).2.inner = (h.buffer_fn h.inner c size).2 ∧
    (h.buffer_size c size).2.buffer_fn = h.buffer_fn ∧
    (h.buffer_size c size).2.process_fn = h.process_fn :=
  ⟨rfl, rfl, rfl, rfl, rfl, rfl, rfl, rfl⟩

/-- C3: `with_buffer_fn` replaces only the buffer behavior (state and process
behavior unchanged), `with_process_fn` replaces only the process behavior
(state and buffer behavior unchanged); hence chained calls dispatch to the
last-supplied behavior of each kind, and a behavior never supplied stays the
always-continue default installed by `new`. -/
theorem c3_with_fns_frame {T Client PS : Type}
    (h : ClosureProcessHandler T Client PS)
    (f f2 : T → Client → Frames → Control × T)
    (p p2 : T → Client → PS → Control × T) (t0 : T) :
    ((h.with_buffer_fn f).inner = h.inner ∧
      (h.with_buffer_fn f).process_fn = h.process_fn ∧
      (h.with_buffer_fn f).buffer_fn = f) ∧
    ((h.with_process_fn p).inner = h.inner ∧
      (h.with_process_fn p).buffer_fn = h.buffer_fn ∧
      (h.with_process_fn p).process_fn = p) ∧
    ((h.with_buffer_fn f2).with_buffer_fn f).buffer_fn = f ∧
    ((h.with_process_fn p2).with_process_fn p).process_fn = p ∧
    ((h.with_buffer_fn f).with_process_fn p).buffer_fn = f ∧
    ((h.with_process_fn p).with_buffer_fn f).process_fn = p ∧
    ((ClosureProcessHandler.new t0 : ClosureProcessHandler T Client PS).with_process_fn
        p).buffer_fn = default_buffer_fn ∧
    ((ClosureProcessHandler.new t0 : ClosureProcessHandler T Client PS).with_buffer_fn
        f).process_fn = default_process_fn ∧
    (∀ (c : Client) (ps : PS), ((h.with_process_fn p).process c ps).1 = (p h.inner c ps).1) ∧
    (∀ (c : Client) (size : Frames),
      ((h.with_buffer_fn f).buffer_size c size).1 = (f h.inner c size).1) :=
  ⟨⟨rfl, rfl, rfl⟩, ⟨rfl, rfl, rfl⟩, rfl, rfl, rfl, rfl, rfl, rfl,
    fun _ _ => rfl, fun _ _ => rfl⟩

/-- C4: an adapter built by `new` alone returns `Control::Continue` from both
`process` and `buffer_size` on every invocation and leaves its state
untouched — exactly the fully default always-continue handler. -/
theorem c4_new_defaults {T Client PS : Type} (t0 : T) (c : Client) (ps : PS) (size : Frames) :
    (ClosureProcessHandler.new t0 : ClosureProcessHandler T Client PS).process c ps =
      (Control.Continue, ClosureProcessHandler.new t0) ∧
    (ClosureProcessHandler.new t0 : ClosureProcessHandler T Client PS).buffer_size c size =
      (Control.Continue, ClosureProcessHandler.new t0) :=
  ⟨rfl, rfl⟩

/-!
Embedding of examples/midi_sine.rs: the `MidiCopy` buffer, its `From` and
`Debug` impls, the bounded channels, and the process closure's control flow.
-/

/-- Embeds `MAX_MIDI`: the fixed capacity of the copy buffer. -/
def MAX_MIDI : Nat := 3

/-- Embeds `jack::RawMidi`: a frame offset plus a byte payload. -/
structure RawMidi where
  time : Frames
  bytes : List Nat
deriving DecidableEq, Repr

/-- Embeds `MidiCopy`: valid length, fixed `[u8; MAX_MIDI]` storage (a list
that is always of length `MAX_MIDI` in the program), and the frame offset. -/
structure MidiCopy where
  len : Nat
  data : List Nat
  time : Frames
deriving DecidableEq, Repr

/-- Embeds `impl From<RawMidi> for MidiCopy`: `len = min(MAX_MIDI, bytes.len())`,
the array starts zeroed (`[0; MAX_MIDI]`) and its first `len` slots receive
`bytes[..len]`. -/
def midiCopyFrom (m : RawMidi) : MidiCopy :=
  ⟨min MAX_MIDI m.bytes.length,
    m.bytes.take (min MAX_MIDI m.bytes.length) ++
      List.replicate (MAX_MIDI - min MAX_MIDI m.bytes.length) 0,
    m.time⟩

/-- Embeds `impl Debug for MidiCopy`: formats `time`, `len`, and only the
slice `&self.data[..self.len]`. -/
def debugFmt (m : MidiCopy) : String :=
  "Midi \x7b time: " ++ toString m.time ++ ", len: " ++ toString m.len ++
    ", data: " ++ toString (m.data.take m.len) ++ " \x7d"

/-- Embeds a `crossbeam_channel::bounded` / `std::sync::mpsc::sync_channel`
endpoint pair as its queue content: fixed capacity and the FIFO backlog
(front = oldest undelivered item). -/
structure Chan (α : Type) where
  cap : Nat
  items : List α

/-- Embeds `try_send`: if the queue is below capacity the item is enqueued and
the send succeeds, otherwise the channel is unchanged and the send reports
failure; the operation always returns immediately (it is a total function). -/
def Chan.trySend {α : Type} (ch : Chan α) (x : α) : Chan α × Bool :=
  if ch.items.length < ch.cap then (⟨ch.cap, ch.items ++ [x]⟩, true) else (ch, false)

/-- The mutable state the process closure captures: `frequency`, `amplitude`
and the oscillator `time` accumulator (all `f64` in Rust; the closure only
stores, compares and resets them, so `ℚ` is a faithful carrier — the two
float kernels are abstracted as parameters below). -/
structure SynthState where
  frequency : ℚ
  amplitude : ℚ
  time : ℚ
deriving DecidableEq, Repr

/-- One iteration of the closure's `for e in show_p` loop: convert the event,
offer the copy to the out-channel with `try_send` (the `Result` is discarded
via `let _ = ...`), then update amplitude/frequency from the status byte.
`noteFreq` abstracts the float kernel
`(2.0_f64).powf((data[1] as f64 - 69.0) / 12.0) * 440.0`. -/
def handleEvent (noteFreq : Nat → ℚ) (st : SynthState) (ch : Chan MidiCopy)
    (e : RawMidi) : SynthState × Chan MidiCopy :=
  let c := midiCopyFrom e
  let ch2 := (ch.trySend c).1
  let st2 :=
    if c.data.getD 0 0 = 144 then ⟨noteFreq (c.data.getD 1 0), 1/2, st.time⟩
    else if c.data.getD 0 0 = 128 then ⟨st.frequency, 0, st.time⟩
    else st
  (st2, ch2)

/-- The whole `for e in show_p` loop over the block's input events, in the
order the server presents them. -/
def processEvents (noteFreq : Nat → ℚ) :
    List RawMidi → SynthState × Chan MidiCopy → SynthState × Chan MidiCopy
| [], p => p
| e :: es, p => processEvents noteFreq es (handleEvent noteFreq p.1 p.2 e)

/-- Embeds `while let Ok(f) = rx.try_recv() { time = 0.0; frequency = f; }`:
the pending queue content of the in-channel (in receipt order) is drained
fully, each value resetting `time` to `0` and overwriting `frequency`. -/
def drainFreqs : List ℚ → SynthState → SynthState
| [], st => st
| f :: fs, st => drainFreqs fs ⟨f, st.amplitude, 0⟩

/-- Embeds the output loop `for v in out.iter_mut()`: each sample is
`amplitude * sin(frequency * time * 2π)` (the float kernel `t ↦ sin(2π·t)`
is abstracted as `sine`), and `time` advances by `frame_t` per sample. -/
def writeOutput (sine : ℚ → ℚ) (frame_t : ℚ) :
    Nat → SynthState → SynthState × List ℚ
| 0, st => (st, [])
| n + 1, st =>
  let y := st.amplitude * sine (st.frequency * st.time)
  let rest := writeOutput sine frame_t n ⟨st.frequency, st.amplitude, st.time + frame_t⟩
  (rest.1, y :: rest.2)

/-- The two MIDI messages the closure writes to `midi_output` each block:
Note On at frame 0 and Note Off at frame `n_frames / 2`. -/
def blockMidiOut (nFrames : Nat) : List RawMidi :=
  [⟨0, [144, 64, 127]⟩, ⟨nFrames / 2, [128, 64, 127]⟩]

/-- The synth state as it stands after the event loop and the in-channel
drain, i.e. the state from which the block's output samples are generated. -/
def blockPreOutputState (noteFreq : Nat → ℚ) (events : List RawMidi)
    (pending : List ℚ) (st : SynthState) (ch : Chan MidiCopy) : SynthState :=
  drainFreqs pending (processEvents noteFreq events (st, ch)).1

/-- One invocation of the process closure: iterate the input events (sending
copies out and reacting to note on/off), write the two fixed MIDI messages,
drain the in-channel, generate the output samples, and return
`Control::Continue`.  Result: (directive, state after the block, out-channel
after the block, MIDI written, audio samples written). -/
def processBlock (noteFreq : Nat → ℚ) (sine : ℚ → ℚ) (frame_t : ℚ)
    (events : List RawMidi) (pending : List ℚ) (nFrames : Nat)
    (st : SynthState) (ch : Chan MidiCopy) :
    Control × SynthState × Chan MidiCopy × List RawMidi × List ℚ :=
  let out := writeOutput sine frame_t nFrames (blockPreOutputState noteFreq events pending st ch)
  (Control.Continue, out.1, (processEvents noteFreq events (st, ch)).2,
    blockMidiOut nFrames, out.2)

/-- A concrete note-frequency kernel used to instantiate witnesses. -/
def zeroNoteFreq : Nat → ℚ := fun _ => 0

/-- The copied prefix of a converted message equals the source prefix. -/
lemma midiCopyFrom_data_take (m : RawMidi) :
    (midiCopyFrom m).data.take (midiCopyFrom m).len =
      m.bytes.take (min MAX_MIDI m.bytes.length) := by
  have hle : min MAX_MIDI m.bytes.length ≤
      (m.bytes.take (min MAX_MIDI m.bytes.length)).length := by
    simp [List.length_take, Nat.min_le_right]
  simp only [midiCopyFrom]
  rw [List.take_append_of_le_length hle, List.take_take]
  simp

/-- A converted message's storage is its valid prefix followed by zero padding. -/
lemma midiCopyFrom_data_eq (m : RawMidi) :
    (midiCopyFrom m).data =
      (midiCopyFrom m).data.take (midiCopyFrom m).len ++
        List.replicate (MAX_MIDI - (midiCopyFrom m).len) 0 := by
  have h := midiCopyFrom_data_take m
  simp only [midiCopyFrom] at h ⊢
  rw [h]

/-- C1: converting a borrowed MIDI message of byte length `n` yields
`len = min(n, MAX_MIDI)` and the first `len` stored bytes equal the source's
first `len` bytes, for `n ≤ MAX_MIDI` and `n > MAX_MIDI` alike; excess bytes
are silently dropped (the conversion is total). -/
theorem c1_midicopy_truncation (m : RawMidi) :
    (midiCopyFrom m).len = min m.bytes.length MAX_MIDI ∧
    (midiCopyFrom m).data.take (midiCopyFrom m).len =
      m.bytes.take (midiCopyFrom m).len := by
  constructor
  · simp [midiCopyFrom, Nat.min_comm]
  · exact midiCopyFrom_data_take m

/-- Draining a nonempty pending queue leaves the amplitude alone, zeroes the
time accumulator, and sets the frequency to the last queued value. -/
lemma drainFreqs_nonempty : ∀ (f : ℚ) (fs : List ℚ) (st : SynthState),
    drainFreqs (f :: fs) st =
      ⟨(f :: fs).getLast (List.cons_ne_nil f fs), st.amplitude, 0⟩
  | _, [], _ => rfl
  | f, g :: gs, st => drainFreqs_nonempty g gs ⟨f, st.amplitude, 0⟩

/-- C5: the drain loop consumes every pending control value in receipt order,
so after the drain the frequency state equals the last pending value. -/
theorem c5_drain_applies_last (pending : List ℚ) (st : SynthState) (h : pending ≠ []) :
    (drainFreqs pending st).frequency = pending.getLast h := by
  cases pending with
  | nil => exact absurd rfl h
  | cons f fs => rw [drainFreqs_nonempty]

/-- Witness for C5 at a concrete two-element backlog. -/
theorem c5_witness : (drainFreqs [(220 : ℚ), 330] ⟨440, 0, 5⟩).frequency = 330 :=
  c5_drain_applies_last [(220 : ℚ), 330] ⟨440, 0, 5⟩ (List.cons_ne_nil _ _)

/-- C6: offering an item to a full out-channel is a silent drop: `try_send`
reports failure without modifying the channel, the event step discards that
result (the channel after the step is unchanged), and the state update the
callback performs is independent of the channel, so processing continues
normally. -/
theorem c6_full_channel_silent_drop (noteFreq : Nat → ℚ) (st : SynthState)
    (ch : Chan MidiCopy) (e : RawMidi) (hfull : ch.cap ≤ ch.items.length) :
    ch.trySend (midiCopyFrom e) = (ch, false) ∧
    (handleEvent noteFreq st ch e).2 = ch ∧
    ∀ ch2 : Chan MidiCopy,
      (handleEvent noteFreq st ch e).1 = (handleEvent noteFreq st ch2 e).1 := by
  have hsend : ch.trySend (midiCopyFrom e) = (ch, false) := by
    unfold Chan.trySend
    rw [if_neg (Nat.not_lt.mpr hfull)]
  refine ⟨hsend, ?_, fun _ => rfl⟩
  show (ch.trySend (midiCopyFrom e)).1 = ch
  rw [hsend]

/-- Witness for C6 at a concrete full capacity-1 channel. -/
theorem c6_witness :
    (⟨1, [⟨3, [128, 64, 0], 0⟩]⟩ : Chan MidiCopy).trySend (midiCopyFrom ⟨0, [144, 60, 100]⟩) =
      ((⟨1, [⟨3, [128, 64, 0], 0⟩]⟩ : Chan MidiCopy), false) ∧
    (handleEvent zeroNoteFreq ⟨220, 0, 0⟩ ⟨1, [⟨3, [128, 64, 0], 0⟩]⟩
        ⟨0, [144, 60, 100]⟩).2 = ⟨1, [⟨3, [128, 64, 0], 0⟩]⟩ :=
  ⟨(c6_full_channel_silent_drop zeroNoteFreq ⟨220, 0, 0⟩ ⟨1, [⟨3, [128, 64, 0], 0⟩]⟩
      ⟨0, [144, 60, 100]⟩ (Nat.le_refl 1)).1,
   (c6_full_channel_silent_drop zeroNoteFreq ⟨220, 0, 0⟩ ⟨1, [⟨3, [128, 64, 0], 0⟩]⟩
      ⟨0, [144, 60, 100]⟩ (Nat.le_refl 1)).2.1⟩

/-- One event step either leaves the out-channel backlog unchanged (drop) or
appends exactly the converted copy at the back. -/
lemma handleEvent_items (noteFreq : Nat → ℚ) (st : SynthState) (ch : Chan MidiCopy)
    (e : RawMidi) :
    (handleEvent noteFreq st ch e).2.items = ch.items ∨
    (handleEvent noteFreq st ch e).2.items = ch.items ++ [midiCopyFrom e] := by
  by_cases hlt : ch.items.length < ch.cap
  · right
    show (ch.trySend (midiCopyFrom e)).1.items = _
    unfold Chan.trySend
    rw [if_pos hlt]
  · left
    show (ch.trySend (midiCopyFrom e)).1.items = _
    unfold Chan.trySend
    rw [if_neg hlt]

/-- C7: iterating a block's input events appends to the out-channel backlog a
subsequence of the converted events, in presentation order: delivered items
preserve the input order even though individual items may be dropped. -/
theorem c7_out_order_preserved (noteFreq : Nat → ℚ) (events : List RawMidi)
    (st : SynthState) (ch : Chan MidiCopy) :
    ∃ d : List MidiCopy,
      (processEvents noteFreq events (st, ch)).2.items = ch.items ++ d ∧
      List.Sublist d (events.map midiCopyFrom) := by
  induction events generalizing st ch with
  | nil => exact ⟨[], by simp [processEvents], List.nil_sublist _⟩
  | cons e es ih =>
    obtain ⟨d, hd, hsub⟩ := ih (handleEvent noteFreq st ch e).1 (handleEvent noteFreq st ch e).2
    have step : processEvents noteFreq (e :: es) (st, ch) =
        processEvents noteFreq es
          ((handleEvent noteFreq st ch e).1, (handleEvent noteFreq st ch e).2) := rfl
    rcases handleEvent_items noteFreq st ch e with hch | hch
    · refine ⟨d, ?_, ?_⟩
      · rw [step, hd, hch]
      · simpa using List.Sublist.cons (midiCopyFrom e) hsub
    · refine ⟨midiCopyFrom e :: d, ?_, ?_⟩
      · rw [step, hd, hch, List.append_assoc]
        rfl
      · simpa using List.Sublist.cons₂ (midiCopyFrom e) hsub

/-- C9: the process closure returns `Control::Continue` on every invocation,
whatever the input events, pending control values, or block size; it never
returns the quit directive. -/
theorem c9_always_continue (noteFreq : Nat → ℚ) (sine : ℚ → ℚ) (frame_t : ℚ)
    (events : List RawMidi) (pending : List ℚ) (nFrames : Nat)
    (st : SynthState) (ch : Chan MidiCopy) :
    (processBlock noteFreq sine frame_t events pending nFrames st ch).1 =
      Control.Continue := rfl

/-- C10: in any block whose in-channel backlog is nonempty, the oscillator
time accumulator is `0` at the point the output samples start being
generated: a frequency change restarts the phase from zero. -/
theorem c10_time_reset (noteFreq : Nat → ℚ) (events : List RawMidi) (pending : List ℚ)
    (st : SynthState) (ch : Chan MidiCopy) (h : pending ≠ []) :
    (blockPreOutputState noteFreq events pending st ch).time = 0 := by
  unfold blockPreOutputState
  cases pending with
  | nil => exact absurd rfl h
  | cons f fs => rw [drainFreqs_nonempty]

/-- Witness for C10 at a concrete block with one pending frequency. -/
theorem c10_witness :
    (blockPreOutputState zeroNoteFreq [⟨0, [144, 60, 100]⟩] [(100 : ℚ)]
      ⟨220, 0, 7⟩ ⟨4, []⟩).time = 0 :=
  c10_time_reset zeroNoteFreq [⟨0, [144, 60, 100]⟩] [(100 : ℚ)] ⟨220, 0, 7⟩ ⟨4, []⟩
    (List.cons_ne_nil _ _)

/-- C8 counterexample: the code implements no equality for `MidiCopy` (only
`Copy`/`Clone`/`Debug`), so the only equality on these plain values is
structural, and it does distinguish trailing bytes: two values agreeing on
`len`, `time`, and the first `len` bytes need not be equal. -/
theorem c8_counterexample :
    ∃ a b : MidiCopy, a.len = b.len ∧ a.time = b.time ∧
      a.data.take a.len = b.data.take b.len ∧ a ≠ b :=
  ⟨⟨1, [1, 0, 0], 0⟩, ⟨1, [1, 5, 0], 0⟩, rfl, rfl, rfl, by decide⟩

/-- C8 amended: debug formatting depends only on `time`, `len`, and the first
`len` bytes; and although the code defines no equality operation, every value
produced by the conversion has zeroed trailing bytes, so two converted values
agreeing on `time`, `len`, and the first `len` bytes are equal outright. -/
theorem c8_prefix_only (a b : MidiCopy) (m1 m2 : RawMidi)
    (h1 : a.time = b.time) (h2 : a.len = b.len)
    (h3 : a.data.take a.len = b.data.take b.len)
    (g1 : (midiCopyFrom m1).time = (midiCopyFrom m2).time)
    (g2 : (midiCopyFrom m1).len = (midiCopyFrom m2).len)
    (g3 : (midiCopyFrom m1).data.take (midiCopyFrom m1).len =
      (midiCopyFrom m2).data.take (midiCopyFrom m2).len) :
    debugFmt a = debugFmt b ∧ midiCopyFrom m1 = midiCopyFrom m2 := by
  constructor
  · simp only [debugFmt]
    rw [h3, h1, h2]
  · have hdata : (midiCopyFrom m1).data = (midiCopyFrom m2).data := by
      rw [midiCopyFrom_data_eq m1, midiCopyFrom_data_eq m2, g3, g2]
    calc midiCopyFrom m1
        = ⟨(midiCopyFrom m1).len, (midiCopyFrom m1).data, (midiCopyFrom m1).time⟩ := rfl
      _ = ⟨(midiCopyFrom m2).len, (midiCopyFrom m2).data, (midiCopyFrom m2).time⟩ := by
          rw [g1, g2, hdata]
      _ = midiCopyFrom m2 := rfl

/-- Witness for the amended C8 at concrete values differing only in bytes
beyond the valid length. -/
theorem c8_witness :
    debugFmt ⟨1, [7, 0, 0], 2⟩ = debugFmt ⟨1, [7, 9, 9], 2⟩ ∧
    midiCopyFrom ⟨5, [1, 2, 3, 4]⟩ = midiCopyFrom ⟨5, [1, 2, 3, 9]⟩ :=
  c8_prefix_only ⟨1, [7, 0, 0], 2⟩ ⟨1, [7, 9, 9], 2⟩ ⟨5, [1, 2, 3, 4]⟩ ⟨5, [1, 2, 3, 9]⟩
    rfl rfl (by decide) (by decide) (by decide) (by decide)

end RustJack
